/-
  Verification of the agency-management allocation engine
  (agency/views.py, agency/admin.py, admin_allocation_fix.py).

  Calendar dates, monthly revenue pro-ration, operating-cost aggregation
  and the allocation save operation are embedded as executable Lean
  definitions that follow the Python source line by line; monetary values
  (Python Decimal / float) are modelled as rationals.
-/
import Mathlib

/-- A calendar date, as Python datetime.date: year, month (1-12), day. -/
structure Date where
  year : Nat
  month : Nat
  day : Nat
deriving DecidableEq

/-- Lexicographic comparison of dates, as Python date ordering. -/
def dateLe (a b : Date) : Prop :=
  a.year < b.year ∨
    (a.year = b.year ∧
      (a.month < b.month ∨ (a.month = b.month ∧ a.day ≤ b.day)))

instance (a b : Date) : Decidable (dateLe a b) := by
  unfold dateLe; exact inferInstance

/-- Boolean form of date comparison, used inside ORM-style filters. -/
def dateLeB (a b : Date) : Bool := decide (dateLe a b)

/-- Lexicographic order on (year, month) pairs: the order in which the
    source's month-stepping loops visit calendar months. -/
def ymLe (a b : Nat × Nat) : Prop :=
  a.1 < b.1 ∨ (a.1 = b.1 ∧ a.2 ≤ b.2)

instance (a b : Nat × Nat) : Decidable (ymLe a b) := by
  unfold ymLe; exact inferInstance

/-- Python max(a, b) for dates: a if a >= b else b. -/
def maxDate (a b : Date) : Date := if dateLe b a then a else b

/-- Python min(a, b) for dates: a if a <= b else b. -/
def minDate (a b : Date) : Date := if dateLe a b then a else b

/-- A date is a real calendar date (month 1-12, day 1-31); every value the
    Django DateField stores satisfies this. -/
def ValidDate (d : Date) : Prop :=
  1 ≤ d.month ∧ d.month ≤ 12 ∧ 1 ≤ d.day ∧ d.day ≤ 31

instance (d : Date) : Decidable (ValidDate d) := by
  unfold ValidDate; exact inferInstance

/-- Linear month index: one step of the source's month loop
    (month + 1, wrapping December to January of the next year) increases
    this index by exactly one for calendar months. -/
def monthIdxN (d : Date) : Nat := d.year * 12 + d.month

/-- A Project row, restricted to the fields the engine reads.
    revenue_type is Option-valued: none models a record where the
    attribute is absent (hasattr false) or the field is null. -/
structure Project where
  start_date : Date
  end_date : Date
  total_revenue : ℚ
  revenue_type : Option String
deriving DecidableEq

/-- revenue_type resolution in revenue_chart_data: default "booked" when
    the attribute is missing, and any value outside booked/forecast is
    coerced back to "booked". -/
def resolveRevenueType (p : Project) : String :=
  match p.revenue_type with
  | none => "booked"
  | some t => if t = "booked" ∨ t = "forecast" then t else "booked"

/-- Whole-month span count of a project: closed form of the while loop in
    revenue_chart_data that steps from start_date.replace(day=1) to
    end_date.replace(day=1) one calendar month at a time, counting the
    visited months.  For calendar dates the loop runs exactly when the
    (year, month) of the start is at most that of the end, and then visits
    monthIdxN end - monthIdxN start + 1 months. -/
def totalProjectMonths (p : Project) : Nat :=
  if ymLe (p.start_date.year, p.start_date.month)
          (p.end_date.year, p.end_date.month) then
    monthIdxN p.end_date + 1 - monthIdxN p.start_date
  else 0

/-- Amount the Project-derived path of revenue_chart_data adds to the
    bucket of month m of the query year: closed form of the second while
    loop, which walks month-firsts from overlap_start.replace(day=1) while
    current <= overlap_end and adds monthly_amount to every visited month
    whose year is the query year.  A month-first (year, m, 1) is visited
    exactly when it is at least the overlap start month and at most
    overlap_end as a date. -/
def projectMonthContribution (year : Nat) (p : Project) (m : Nat) : ℚ :=
  let year_start : Date := ⟨year, 1, 1⟩
  let year_end : Date := ⟨year, 12, 31⟩
  let overlap_start := maxDate p.start_date year_start
  let overlap_end := minDate p.end_date year_end
  if dateLe overlap_start overlap_end then
    let n := totalProjectMonths p
    if 0 < n then
      if ymLe (overlap_start.year, overlap_start.month) (year, m) ∧
         dateLe ⟨year, m, 1⟩ overlap_end then
        p.total_revenue / (n : ℚ)
      else 0
    else 0
  else 0

/-- A MonthlyRevenue ledger row for one company (the ORM queries filter by
    company; lists here hold one company's rows). -/
structure MonthlyRevenueRow where
  year : Nat
  month : Nat
  revenue_type : String
  revenue : ℚ
deriving DecidableEq

/-- Sum of ledger revenue for (year, month, revenue_type): the total the
    grouped MonthlyRevenue query reports for that key (0 when no row
    exists, in which case the source leaves the bucket at its initial 0). -/
def ledgerSum (l : List MonthlyRevenueRow) (year m : Nat) (t : String) : ℚ :=
  ((l.filter (fun r => decide (r.year = year ∧ r.month = m ∧ r.revenue_type = t))).map
    (fun r => r.revenue)).sum

/-- One month bucket of revenue_chart_data. -/
structure Bucket where
  booked : ℚ
  forecast : ℚ
deriving DecidableEq

/-- Month buckets after Strategy 1 of revenue_chart_data: the dict holds
    keys 1..12 initialised to 0 and each grouped ledger row with a
    booked/forecast type and an in-range month overwrites its bucket with
    the grouped sum. -/
def ledgerBucket (l : List MonthlyRevenueRow) (year m : Nat) : Bucket :=
  if 1 ≤ m ∧ m ≤ 12 then
    { booked := ledgerSum l year m "booked",
      forecast := ledgerSum l year m "forecast" }
  else { booked := 0, forecast := 0 }

/-- One iteration of the Strategy 2 project loop: add the project's
    pro-rated contribution to the bucket of its resolved revenue type. -/
def addProjectToMonths (year : Nat) (md : Nat → Bucket) (p : Project) :
    Nat → Bucket :=
  fun m =>
    let c := projectMonthContribution year p m
    let b := md m
    if resolveRevenueType p = "booked" then { b with booked := b.booked + c }
    else { b with forecast := b.forecast + c }

/-- monthly_data of revenue_chart_data after both strategies: ledger
    values assigned first, then every project's contribution added. -/
def monthlyDataFun (l : List MonthlyRevenueRow) (ps : List Project)
    (year : Nat) : Nat → Bucket :=
  ps.foldl (addProjectToMonths year) (fun m => ledgerBucket l year m)

/-- Per-type list of project contributions to month m (projects whose
    resolved revenue type is t). -/
def typeContribs (ps : List Project) (t : String) (year m : Nat) : List ℚ :=
  ((ps.filter (fun p => decide (resolveRevenueType p = t))).map
    (fun p => projectMonthContribution year p m))

/-- A UserProfile row of one company, restricted to the fields
    calculate_monthly_operating_costs reads. -/
structure UserProfileRow where
  status : String
  start_date : Option Date
  end_date : Option Date
  monthly_salary_cost : ℚ
deriving DecidableEq

/-- A structured Cost row (the Cost model).  start_date is a plain date;
    end_date may be null (open-ended). -/
structure CostRow where
  cost_type : String
  monthly_amount : ℚ
  start_date : Date
  end_date : Option Date
  is_active : Bool
  is_contractor : Bool
deriving DecidableEq

/-- A legacy Expense row.  The ORM filter start_date__lte excludes rows
    whose start_date is null, hence the Option with a false branch. -/
structure ExpenseRow where
  monthly_amount : ℚ
  is_active : Bool
  start_date : Option Date
  end_date : Option Date
deriving DecidableEq

/-- A legacy ContractorExpense row, keyed by (year, month). -/
structure ContractorExpenseRow where
  year : Nat
  month : Nat
  amount : ℚ
deriving DecidableEq

/-- calendar.monthrange second component: days in a month, with the
    Gregorian leap rule for February. -/
def daysInMonth (y m : Nat) : Nat :=
  if m = 2 then
    if (y % 4 = 0 ∧ y % 100 ≠ 0) ∨ y % 400 = 0 then 29 else 28
  else if m = 4 ∨ m = 6 ∨ m = 9 ∨ m = 11 then 30 else 31

/-- Team-member filter of calculate_monthly_operating_costs: status in
    {full_time, part_time}, start_date on or before the first of the
    month or null, end_date on or after the first of the month or null. -/
def teamMemberActive (y m : Nat) (u : UserProfileRow) : Bool :=
  (u.status == "full_time" || u.status == "part_time") &&
  (match u.start_date with
   | some d => dateLeB d ⟨y, m, 1⟩
   | none => true) &&
  (match u.end_date with
   | some d => dateLeB ⟨y, m, 1⟩ d
   | none => true)

/-- Cost filter of calculate_monthly_operating_costs: start_date on or
    before the month end, active, end_date null or on or after the month
    start. -/
def costActive (y m : Nat) (c : CostRow) : Bool :=
  dateLeB c.start_date ⟨y, m, daysInMonth y m⟩ && c.is_active &&
  (match c.end_date with
   | some d => dateLeB ⟨y, m, 1⟩ d
   | none => true)

/-- Legacy Expense filter: active, start_date (non-null) on or before the
    month end, end_date null or on or after the month start. -/
def expenseActiveInMonth (y m : Nat) (e : ExpenseRow) : Bool :=
  e.is_active &&
  (match e.start_date with
   | some d => dateLeB d ⟨y, m, daysInMonth y m⟩
   | none => false) &&
  (match e.end_date with
   | some d => dateLeB ⟨y, m, 1⟩ d
   | none => true)

/-- calculate_monthly_operating_costs (agency/views.py).  The row lists
    hold the company's rows.  costModelUsable models the try/except
    capability probe: true when the structured Cost query succeeds, false
    when it raises and the legacy branch runs instead. -/
def calculate_monthly_operating_costs (profiles : List UserProfileRow)
    (costs : List CostRow) (expenses : List ExpenseRow)
    (contractorExpenses : List ContractorExpenseRow)
    (y m : Nat) (costModelUsable : Bool) : ℚ :=
  let payroll := (profiles.filter (teamMemberActive y m)).foldl
    (fun acc u => acc + u.monthly_salary_cost) 0
  if costModelUsable then
    (costs.filter (costActive y m)).foldl
      (fun acc c => if c.cost_type == "payroll" then acc
                    else acc + c.monthly_amount) payroll
  else
    let withExpenses := (expenses.filter (expenseActiveInMonth y m)).foldl
      (fun acc e => acc + e.monthly_amount) payroll
    (contractorExpenses.filter (fun ce => ce.year == y && ce.month == m)).foldl
      (fun acc ce => acc + ce.amount) withExpenses

/-- Payroll component: salary costs of active full/part-time members. -/
def payrollPart (profiles : List UserProfileRow) (y m : Nat) : ℚ :=
  ((profiles.filter (teamMemberActive y m)).map
    (fun u => u.monthly_salary_cost)).sum

/-- Structured component: monthly amounts of active non-payroll Cost rows. -/
def structuredCostPart (costs : List CostRow) (y m : Nat) : ℚ :=
  (((costs.filter (costActive y m)).filter
      (fun c => !(c.cost_type == "payroll"))).map
    (fun c => c.monthly_amount)).sum

/-- Legacy Expense component: monthly amounts of active overlapping rows. -/
def legacyExpensePart (expenses : List ExpenseRow) (y m : Nat) : ℚ :=
  ((expenses.filter (expenseActiveInMonth y m)).map
    (fun e => e.monthly_amount)).sum

/-- Legacy ContractorExpense component: amounts of rows matching the
    (year, month) exactly. -/
def contractorExpensePart (ces : List ContractorExpenseRow) (y m : Nat) : ℚ :=
  ((ces.filter (fun ce => ce.year == y && ce.month == m)).map
    (fun ce => ce.amount)).sum

/-- One JSON allocation entry posted to save_allocations_view.  none in a
    field models a missing key or a falsy value where the source tests
    truthiness (member ids are non-empty strings when present). -/
structure AllocInput where
  member_id : Option String
  user_profile : Option String
  year : Option Int
  month : Option Int
  week : Option Int
  hours : Option ℚ
  is_pm : Option Bool
deriving DecidableEq

/-- A persisted ProjectAllocation row. -/
structure PARow where
  project : String
  member : String
  year : Int
  month : Int
  week : Option Int
  allocated_hours : ℚ
  hourly_rate : ℚ
  is_project_manager : Bool
deriving DecidableEq

/-- A UserProfile as the save operation sees it: primary key and rate. -/
structure ProfileRec where
  id : String
  hourly_rate : ℚ
deriving DecidableEq

/-- UserProfile.objects.get(id=...): some row on success, none when the
    lookup raises DoesNotExist. -/
def findProfile (db : List ProfileRec) (i : String) : Option ProfileRec :=
  db.find? (fun u => u.id == i)

/-- alloc.get('member_id') or alloc.get('user_profile'). -/
def effMemberId (a : AllocInput) : Option String :=
  a.member_id.orElse (fun _ => a.user_profile)

/-- int(alloc.get('year', 0)). -/
def entryYear (a : AllocInput) : Int := a.year.getD 0

/-- int(alloc.get('month', 0)). -/
def entryMonth (a : AllocInput) : Int := a.month.getD 0

/-- float(alloc.get('hours', 0)). -/
def entryHours (a : AllocInput) : ℚ := a.hours.getD 0

/-- Adding hours under a key into the insertion-ordered monthly_totals
    dict of the fixed save: existing keys accumulate in place, new keys
    append. -/
def upsertAdd (l : List ((String × Int × Int) × ℚ)) (k : String × Int × Int)
    (h : ℚ) : List ((String × Int × Int) × ℚ) :=
  match l with
  | [] => [(k, h)]
  | (k₀, v) :: rest =>
    if k₀ = k then (k₀, v + h) :: rest else (k₀, v) :: upsertAdd rest k h

/-- First pass of the fixed save (admin_allocation_fix.py): build
    monthly_totals, keeping only entries with a truthy member id, year,
    month and hours > 0, summing hours per (member, year, month) key. -/
def monthly_totals (allocs : List AllocInput) :
    List ((String × Int × Int) × ℚ) :=
  allocs.foldl (fun acc a =>
    match effMemberId a with
    | some mid =>
      if entryYear a ≠ 0 ∧ entryMonth a ≠ 0 ∧ 0 < entryHours a then
        upsertAdd acc (mid, entryYear a, entryMonth a) (entryHours a)
      else acc
    | none => acc) []

/-- Result of the fixed save: the surviving ProjectAllocation rows, the
    created_count reported in the JSON response message, and the per-row
    error messages logged for entries whose member lookup failed. -/
structure SaveResult where
  rows : List PARow
  created_count : Nat
  errors : List String
deriving DecidableEq

/-- Row created by the fixed save for one monthly_totals entry. -/
def mkFixedRow (pid : String) (kv : (String × Int × Int) × ℚ)
    (prof : ProfileRec) : PARow :=
  { project := pid, member := kv.1.1, year := kv.1.2.1, month := kv.1.2.2,
    week := none, allocated_hours := kv.2, hourly_rate := prof.hourly_rate,
    is_project_manager := false }

/-- save_allocations_view of admin_allocation_fix.py: delete every
    existing allocation of the project, aggregate the input into
    monthly_totals, then create one row per key whose member id resolves,
    counting successes and logging a per-row error otherwise. -/
def save_allocations_view_fixed (db : List ProfileRec) (pid : String)
    (state : List PARow) (allocs : List AllocInput) : SaveResult :=
  let cleared := state.filter (fun r => !(r.project == pid))
  let totals := monthly_totals allocs
  let final := totals.foldl
    (fun (acc : List PARow × Nat × List String) kv =>
      match findProfile db kv.1.1 with
      | some prof => (acc.1 ++ [mkFixedRow pid kv prof], acc.2.1 + 1, acc.2.2)
      | none => (acc.1, acc.2.1, acc.2.2 ++ ["Error creating allocation"]))
    (cleared, 0, [])
  { rows := final.1, created_count := final.2.1, errors := final.2.2 }

/-- Rows the creation loop of the fixed save produces, in order. -/
def fixedCreatedRows (db : List ProfileRec) (pid : String)
    (totals : List ((String × Int × Int) × ℚ)) : List PARow :=
  totals.filterMap (fun kv => (findProfile db kv.1.1).map (mkFixedRow pid kv))

/-- Number of rows the creation loop creates. -/
def fixedCreatedCount (db : List ProfileRec)
    (totals : List ((String × Int × Int) × ℚ)) : Nat :=
  (totals.filter (fun kv => (findProfile db kv.1.1).isSome)).length

/-- Error messages the creation loop logs. -/
def fixedErrors (db : List ProfileRec)
    (totals : List ((String × Int × Int) × ℚ)) : List String :=
  (totals.filter (fun kv => (findProfile db kv.1.1).isNone)).map
    (fun _ => "Error creating allocation")

/-- An input entry the fixed save rejects before aggregation: missing or
    falsy member id, year, or month, or hours missing, zero or negative. -/
def invalidAllocEntry (a : AllocInput) : Prop :=
  effMemberId a = none ∨ entryYear a = 0 ∨ entryMonth a = 0 ∨ entryHours a ≤ 0

/-- First pass of save_allocations_view in agency/admin.py: scan the batch
    for the first entry whose is_pm value is truthy and take its member_id
    (possibly absent). -/
def pmMemberIdOf (allocs : List AllocInput) : Option String :=
  (allocs.find? (fun a => a.is_pm == some true)).bind (fun a => a.member_id)

/-- str(pm_member_id) as the admin save compares it: Python str of None is
    the literal string None; member ids are their own str. -/
def pmMemberStr (allocs : List AllocInput) : String :=
  match pmMemberIdOf allocs with
  | some s => s
  | none => "None"

/-- Body of the creation loop of the admin save: entries carrying an is_pm
    key are skipped outright; others need a truthy member_id, year and
    month; a failed member lookup skips the row; a created row stamps
    is_project_manager with str(member_id) == str(pm_member_id) and sets
    week only when truthy. -/
def adminStep (db : List ProfileRec) (pid : String) (pm : String)
    (acc : List PARow) (a : AllocInput) : List PARow :=
  if a.is_pm ≠ none then acc
  else
    match a.member_id with
    | none => acc
    | some mid =>
      if entryYear a ≠ 0 ∧ entryMonth a ≠ 0 then
        match findProfile db mid with
        | some prof =>
          acc ++ [{ project := pid, member := mid, year := entryYear a,
                    month := entryMonth a,
                    week := (match a.week with
                             | some w => if w ≠ 0 then some w else none
                             | none => none),
                    allocated_hours := entryHours a,
                    hourly_rate := prof.hourly_rate,
                    is_project_manager := (mid == pm) }]
        | none => acc
      else acc

/-- save_allocations_view of agency/admin.py: resolve the PM designation
    once for the batch, delete the project's allocations, then create rows
    entry by entry (no per-key aggregation in this version). -/
def save_allocations_view_admin (db : List ProfileRec) (pid : String)
    (state : List PARow) (allocs : List AllocInput) : List PARow :=
  allocs.foldl (adminStep db pid (pmMemberStr allocs))
    (state.filter (fun r => !(r.project == pid)))

/-- Total allocated hours of a project: the aggregate Sum over the
    project's ProjectAllocation rows in pm_dashboard (0 when there are
    none). -/
def projectAllocatedHours (rows : List PARow) (pid : String) : ℚ :=
  ((rows.filter (fun r => r.project == pid)).map
    (fun r => r.allocated_hours)).sum

/-- Utilization in pm_dashboard: allocated / total_hours * 100 when
    total_hours > 0, else 0 (total_hours is `project.total_hours or 0`,
    so a null total also lands in the 0 branch). -/
def projectUtilization (allocated total_hours : ℚ) : ℚ :=
  if 0 < total_hours then allocated / total_hours * 100 else 0

/-- Health classification in pm_dashboard:
    good if utilization >= 80 else warning if >= 50 else critical. -/
def projectHealth (u : ℚ) : String :=
  if 80 ≤ u then "good" else if 50 ≤ u then "warning" else "critical"

/-- Booked MonthlyRevenue total for one (year, month): the aggregate Sum
    the dashboard view reads first (or 0 when no rows match). -/
def bookedMonthLedgerSum (l : List MonthlyRevenueRow) (y m : Nat) : ℚ :=
  ((l.filter (fun r =>
      decide (r.year = y ∧ r.month = m ∧ r.revenue_type = "booked"))).map
    (fun r => r.revenue)).sum

/-- Whole-month duration used by the dashboard fallback:
    (end.year - start.year) * 12 + end.month - start.month + 1, a Python
    int that can be non-positive for inverted ranges. -/
def durationMonthsInt (p : Project) : Int :=
  ((p.end_date.year : Int) - (p.start_date.year : Int)) * 12 +
    (p.end_date.month : Int) - (p.start_date.month : Int) + 1

/-- Project filter of the dashboard current-month fallback: stored
    revenue_type equal to booked, start_date on or before day 28 of the
    current month, end_date on or after day 1. -/
def dashboardProjectFilter (y m : Nat) (p : Project) : Bool :=
  p.revenue_type == some "booked" && dateLeB p.start_date ⟨y, m, 28⟩ &&
    dateLeB ⟨y, m, 1⟩ p.end_date

/-- Current-month revenue derived from projects in the dashboard view:
    each filtered project with positive whole-month duration adds
    total_revenue / duration_months. -/
def currentMonthProjectRevenue (ps : List Project) (y m : Nat) : ℚ :=
  (ps.filter (dashboardProjectFilter y m)).foldl
    (fun acc p =>
      if 0 < durationMonthsInt p then
        acc + p.total_revenue / (durationMonthsInt p : ℚ)
      else acc) 0

/-- current_revenue of the dashboard view: the booked MonthlyRevenue total
    for the current month when positive, otherwise the Project-derived
    fallback. -/
def dashboardCurrentRevenue (l : List MonthlyRevenueRow) (ps : List Project)
    (y m : Nat) : ℚ :=
  let monthly_rev := bookedMonthLedgerSum l y m
  if 0 < monthly_rev then monthly_rev else currentMonthProjectRevenue ps y m

/-- The chart payload of revenue_chart_data: four 12-entry series, one per
    month Jan..Dec. -/
structure ChartData where
  booked : List ℚ
  forecast : List ℚ
  combined : List ℚ
  expenses : List ℚ
deriving DecidableEq

/-- revenue_chart_data (agency/views.py): ledger assignment, project
    pro-ration, operating expenses per month, then the four series read
    from buckets 1..12. -/
def revenue_chart_data (l : List MonthlyRevenueRow) (ps : List Project)
    (profiles : List UserProfileRow) (costs : List CostRow)
    (expenseRows : List ExpenseRow) (ceRows : List ContractorExpenseRow)
    (u : Bool) (year : Nat) : ChartData :=
  let md := monthlyDataFun l ps year
  { booked := (List.range 12).map (fun i => (md (i + 1)).booked),
    forecast := (List.range 12).map (fun i => (md (i + 1)).forecast),
    combined := (List.range 12).map
      (fun i => (md (i + 1)).booked + (md (i + 1)).forecast),
    expenses := (List.range 12).map (fun i =>
      calculate_monthly_operating_costs profiles costs expenseRows ceRows
        year (i + 1) u) }

/-- A ledger holding one booked row of 100 for January 2024. -/
def ledgerJan2024 : List MonthlyRevenueRow := [⟨2024, 1, "booked", 100⟩]

/-- A one-month booked project in January 2024 worth 50. -/
def projJan2024 : Project := ⟨⟨2024, 1, 1⟩, ⟨2024, 1, 31⟩, 50, some "booked"⟩

/-- A booked project spanning exactly the two whole months January and
    February 2024, worth 1000. -/
def projTwoMonths : Project := ⟨⟨2024, 1, 15⟩, ⟨2024, 2, 10⟩, 1000, some "booked"⟩

/-- A profile table holding the single member with id 1. -/
def dbOne : List ProfileRec := [⟨"1", 50⟩]

/-- A valid allocation entry for member 1, January 2024, 10 hours. -/
def validEntryA : AllocInput :=
  ⟨some "1", none, some 2024, some 1, none, some 10, none⟩

/-- An entry whose member id 99 matches no profile. -/
def unknownEntryB : AllocInput :=
  ⟨some "99", none, some 2024, some 1, none, some 5, none⟩

/-- Profile table with members 1 and 2. -/
def dbTwo : List ProfileRec := [⟨"1", 50⟩, ⟨"2", 60⟩]

/-- A PM-designation entry for member 1. -/
def pmEntry : AllocInput := ⟨some "1", none, none, none, none, none, some true⟩

/-- Hour rows for member 1 and member 2. -/
def hoursEntryOne : AllocInput :=
  ⟨some "1", none, some 2024, some 1, none, some 10, none⟩

def hoursEntryTwo : AllocInput :=
  ⟨some "2", none, some 2024, some 1, none, some 5, none⟩

/-- A batch with a PM designation for member 1 and hour rows for both. -/
def batchWithPm : List AllocInput := [pmEntry, hoursEntryOne, hoursEntryTwo]

/-- An entry with zero hours for an existing member. -/
def zeroHoursEntry : AllocInput :=
  ⟨some "1", none, some 2024, some 1, none, some 0, none⟩

/-- An existing allocation row of project p. -/
def existingRow : PARow := ⟨"p", "1", 2024, 1, none, 8, 50, false⟩

/-- A forecast project overlapping January 2024. -/
def forecastProj : Project := ⟨⟨2024, 1, 1⟩, ⟨2024, 3, 31⟩, 900, some "forecast"⟩

theorem monthlyDataFun_foldl (year : Nat) (ps : List Project)
    (g : Nat → Bucket) (m : Nat) :
    (ps.foldl (addProjectToMonths year) g) m =
      { booked := (g m).booked + (typeContribs ps "booked" year m).sum,
        forecast := (g m).forecast + (typeContribs ps "forecast" year m).sum } := by
  induction ps generalizing g with
  | nil => simp [typeContribs]
  | cons p ps ih =>
    rw [List.foldl_cons, ih]
    by_cases hb : resolveRevenueType p = "booked"
    · have hf : ¬ resolveRevenueType p = "forecast" := by
        rw [hb]; decide
      simp [addProjectToMonths, typeContribs, hb, hf]
      ring
    · have hf : resolveRevenueType p = "forecast" := by
        unfold resolveRevenueType at hb ⊢
        cases h : p.revenue_type with
        | none => simp [h] at hb
        | some t =>
          simp [h] at hb ⊢
          obtain ⟨h1, h2⟩ := hb
          rcases h1 with h1 | h1
          · exact absurd h1 h2
          · simp [h1]
      simp [addProjectToMonths, typeContribs, hb, hf]
      ring

/-- Closed form of a single month bucket of revenue_chart_data: the ledger
    assignment plus the sum of all project contributions of each type. -/
theorem monthlyDataFun_apply (l : List MonthlyRevenueRow) (ps : List Project)
    (year m : Nat) :
    monthlyDataFun l ps year m =
      { booked := (ledgerBucket l year m).booked +
          (typeContribs ps "booked" year m).sum,
        forecast := (ledgerBucket l year m).forecast +
          (typeContribs ps "forecast" year m).sum } := by
  unfold monthlyDataFun
  exact monthlyDataFun_foldl year ps _ m

theorem foldl_add_map (f : α → ℚ) (l : List α) (init : ℚ) :
    l.foldl (fun acc x => acc + f x) init = init + (l.map f).sum := by
  induction l generalizing init with
  | nil => simp
  | cons x xs ih => rw [List.foldl_cons, ih]; simp; ring

theorem foldl_cond_add_map (p : α → Bool) (f : α → ℚ) (l : List α)
    (init : ℚ) :
    l.foldl (fun acc x => if p x then acc else acc + f x) init =
      init + ((l.filter (fun x => !(p x))).map f).sum := by
  induction l generalizing init with
  | nil => simp
  | cons x xs ih =>
    rw [List.foldl_cons]
    by_cases h : p x
    · simp [h, ih]
    · simp [h, ih]; ring

/-- C3: calculate_monthly_operating_costs draws non-payroll costs from
    exactly one source.  When the structured Cost query is usable the
    result is payroll plus the structured non-payroll costs only — the
    legacy Expense and ContractorExpense lists do not appear on the right
    side — and when it fails the result is payroll plus the two legacy
    components only; the two sources are never summed together. -/
theorem c3_cost_sources (profiles : List UserProfileRow) (costs : List CostRow)
    (expenses : List ExpenseRow) (ces : List ContractorExpenseRow)
    (y m : Nat) :
    calculate_monthly_operating_costs profiles costs expenses ces y m true =
      payrollPart profiles y m + structuredCostPart costs y m ∧
    calculate_monthly_operating_costs profiles costs expenses ces y m false =
      payrollPart profiles y m + legacyExpensePart expenses y m +
        contractorExpensePart ces y m := by
  constructor
  · simp only [calculate_monthly_operating_costs, payrollPart, structuredCostPart,
      foldl_add_map, foldl_cond_add_map, if_true]
    simp
  · simp only [calculate_monthly_operating_costs, payrollPart, legacyExpensePart,
      contractorExpensePart, foldl_add_map, Bool.false_eq_true, if_false]
    ring

theorem fixed_fold_general (db : List ProfileRec) (pid : String)
    (totals : List ((String × Int × Int) × ℚ)) (r0 : List PARow) (c0 : Nat)
    (e0 : List String) :
    totals.foldl
      (fun (acc : List PARow × Nat × List String) kv =>
        match findProfile db kv.1.1 with
        | some prof => (acc.1 ++ [mkFixedRow pid kv prof], acc.2.1 + 1, acc.2.2)
        | none => (acc.1, acc.2.1, acc.2.2 ++ ["Error creating allocation"]))
      (r0, c0, e0) =
      (r0 ++ fixedCreatedRows db pid totals,
       c0 + fixedCreatedCount db totals, e0 ++ fixedErrors db totals) := by
  induction totals generalizing r0 c0 e0 with
  | nil => simp [fixedCreatedRows, fixedCreatedCount, fixedErrors]
  | cons kv rest ih =>
    rw [List.foldl_cons]
    cases h : findProfile db kv.1.1 with
    | some prof =>
      simp only [h, ih]
      simp [fixedCreatedRows, fixedCreatedCount, fixedErrors, h]
      omega
    | none =>
      simp only [h, ih]
      simp [fixedCreatedRows, fixedCreatedCount, fixedErrors, h]

/-- Decomposition of the fixed save: the final rows are the untouched
    other-project rows followed by the created rows, and the count and
    errors depend only on the input batch and the profile table. -/
theorem save_fixed_decomp (db : List ProfileRec) (pid : String)
    (state : List PARow) (allocs : List AllocInput) :
    save_allocations_view_fixed db pid state allocs =
      { rows := state.filter (fun r => !(r.project == pid)) ++
          fixedCreatedRows db pid (monthly_totals allocs),
        created_count := fixedCreatedCount db (monthly_totals allocs),
        errors := fixedErrors db (monthly_totals allocs) } := by
  unfold save_allocations_view_fixed
  simp only [fixed_fold_general]
  simp

theorem fixedCreatedRows_project (db : List ProfileRec) (pid : String)
    (totals : List ((String × Int × Int) × ℚ)) :
    ∀ r ∈ fixedCreatedRows db pid totals, r.project = pid := by
  intro r hr
  unfold fixedCreatedRows at hr
  rw [List.mem_filterMap] at hr
  obtain ⟨kv, _, hkv⟩ := hr
  cases h : findProfile db kv.1.1 with
  | some prof =>
    rw [h] at hkv
    simp at hkv
    rw [← hkv]
    rfl
  | none => rw [h] at hkv; cases hkv

/-- C4: the fixed save is idempotent.  Running it a second time on the
    state it produced, with the same input batch, returns exactly the same
    result: same final ProjectAllocation rows (no duplicates, no
    accumulation of hours), same created count, same errors. -/
theorem c4_replace_allocations_idempotent (db : List ProfileRec)
    (pid : String) (state : List PARow) (allocs : List AllocInput) :
    save_allocations_view_fixed db pid
        (save_allocations_view_fixed db pid state allocs).rows allocs =
      save_allocations_view_fixed db pid state allocs := by
  have hproj := fixedCreatedRows_project db pid (monthly_totals allocs)
  simp only [save_fixed_decomp]
  congr 1
  rw [List.filter_append]
  have h2 : (fixedCreatedRows db pid (monthly_totals allocs)).filter
      (fun r => !(r.project == pid)) = [] := by
    rw [List.filter_eq_nil_iff]
    intro r hr
    simp [hproj r hr]
  rw [h2, List.append_nil, List.filter_filter]
  simp

/-- C5: a batch of one entry whose member id resolves and one whose member
    id matches no UserProfile is handled without raising: the valid row is
    created, the invalid one is skipped, the reported created count is 1
    and exactly one per-row error is logged for the rejected entry. -/
theorem c5_partial_success (db : List ProfileRec) (pid : String)
    (state : List PARow) (a b : AllocInput) (i j : String) (prof : ProfileRec)
    (hai : effMemberId a = some i) (hfi : findProfile db i = some prof)
    (hay : entryYear a ≠ 0) (ham : entryMonth a ≠ 0) (hah : 0 < entryHours a)
    (hbj : effMemberId b = some j) (hfj : findProfile db j = none)
    (hby : entryYear b ≠ 0) (hbm : entryMonth b ≠ 0) (hbh : 0 < entryHours b) :
    (save_allocations_view_fixed db pid state [a, b]).created_count = 1 ∧
    (save_allocations_view_fixed db pid state [a, b]).errors =
      ["Error creating allocation"] ∧
    (save_allocations_view_fixed db pid state [a, b]).rows =
      state.filter (fun r => !(r.project == pid)) ++
        [mkFixedRow pid ((i, entryYear a, entryMonth a), entryHours a) prof] := by
  have hij : i ≠ j := by
    intro h
    rw [h, hfj] at hfi
    cases hfi
  have htot : monthly_totals [a, b] =
      [((i, entryYear a, entryMonth a), entryHours a),
       ((j, entryYear b, entryMonth b), entryHours b)] := by
    unfold monthly_totals
    rw [List.foldl_cons, List.foldl_cons, List.foldl_nil]
    simp only [hai, hbj]
    rw [if_pos ⟨hby, hbm, hbh⟩, if_pos ⟨hay, ham, hah⟩]
    have hk : ¬((i, entryYear a, entryMonth a) = (j, entryYear b, entryMonth b)) := by
      intro h
      exact hij (congrArg Prod.fst h)
    simp [upsertAdd, hk]
  simp only [save_fixed_decomp, htot]
  simp [fixedCreatedRows, fixedCreatedCount, fixedErrors, hfi, hfj]

theorem foldl_id_of (f : β → α → β) (l : List α) (init : β)
    (h : ∀ a ∈ l, ∀ acc, f acc a = acc) : l.foldl f init = init := by
  induction l generalizing init with
  | nil => rfl
  | cons x xs ih =>
    rw [List.foldl_cons, h x (List.mem_cons_self x xs)]
    exact ih init (fun a ha acc => h a (List.mem_cons_of_mem x ha) acc)

/-- C9: a batch whose every entry is invalid (missing/zero/negative hours,
    or missing/zero member id, year or month) produces no rows: the save
    still deletes every existing allocation of the project, creates
    nothing, reports created count 0 and logs no per-row error. -/
theorem c9_invalid_entries (db : List ProfileRec) (pid : String)
    (state : List PARow) (allocs : List AllocInput)
    (h : ∀ a ∈ allocs, invalidAllocEntry a) :
    save_allocations_view_fixed db pid state allocs =
      { rows := state.filter (fun r => !(r.project == pid)),
        created_count := 0, errors := [] } := by
  have htot : monthly_totals allocs = [] := by
    unfold monthly_totals
    apply foldl_id_of
    intro a ha acc
    rcases h a ha with hm | hy | hmm | hh
    · simp only [hm]
    · cases hme : effMemberId a with
      | none => simp
      | some mid =>
        simp only
        rw [if_neg]
        intro hc
        exact hc.1 hy
    · cases hme : effMemberId a with
      | none => simp
      | some mid =>
        simp only
        rw [if_neg]
        intro hc
        exact hc.2.1 hmm
    · cases hme : effMemberId a with
      | none => simp
      | some mid =>
        simp only
        rw [if_neg]
        intro hc
        exact absurd hc.2.2 (not_lt.mpr hh)
  simp only [save_fixed_decomp, htot]
  simp [fixedCreatedRows, fixedCreatedCount, fixedErrors]

theorem adminStep_invariant (db : List ProfileRec) (pid pm : String)
    (allocs : List AllocInput) (init : List PARow)
    (h : ∀ r ∈ init, r.project = pid → r.is_project_manager = (r.member == pm)) :
    ∀ r ∈ allocs.foldl (adminStep db pid pm) init,
      r.project = pid → r.is_project_manager = (r.member == pm) := by
  induction allocs generalizing init with
  | nil => exact h
  | cons a rest ih =>
    rw [List.foldl_cons]
    apply ih
    intro r hr hrp
    unfold adminStep at hr
    by_cases hpm : a.is_pm ≠ none
    · rw [if_pos hpm] at hr
      exact h r hr hrp
    · rw [if_neg hpm] at hr
      cases hmid : a.member_id with
      | none => rw [hmid] at hr; exact h r hr hrp
      | some mid =>
        rw [hmid] at hr
        simp only at hr
        by_cases hym : entryYear a ≠ 0 ∧ entryMonth a ≠ 0
        · rw [if_pos hym] at hr
          cases hf : findProfile db mid with
          | some prof =>
            rw [hf] at hr
            rw [List.mem_append] at hr
            rcases hr with hr | hr
            · exact h r hr hrp
            · rw [List.mem_singleton] at hr
              rw [hr]
          | none => rw [hf] at hr; exact h r hr hrp
        · rw [if_neg hym] at hr
          exact h r hr hrp

/-- C8: when the batch contains an entry with a truthy is_pm, the PM
    designation is resolved once for the whole batch — the member id of
    the first such entry wins — and every surviving row of the project has
    is_project_manager true exactly when it belongs to that member. -/
theorem c8_pm_designation (db : List ProfileRec) (pid : String)
    (state : List PARow) (allocs : List AllocInput) (e : AllocInput)
    (i : String)
    (he : allocs.find? (fun a => a.is_pm == some true) = some e)
    (hi : e.member_id = some i) :
    ∀ r ∈ save_allocations_view_admin db pid state allocs,
      r.project = pid → r.is_project_manager = (r.member == i) := by
  have hpm : pmMemberStr allocs = i := by
    unfold pmMemberStr pmMemberIdOf
    rw [he]
    simp [hi]
  unfold save_allocations_view_admin
  rw [hpm]
  apply adminStep_invariant
  intro r hr hrp
  rw [List.mem_filter] at hr
  rw [hrp] at hr
  simp at hr

/-- C7: the three-tier classification is exactly good iff utilization is
    at least 80, warning iff it is in [50, 80), critical iff below 50; in
    particular a project with zero allocated hours and positive
    total_hours is critical, and utilization exactly 80 is good. -/
theorem c7_health_classification (rows : List PARow) (pid : String)
    (total_hours : ℚ) :
    (projectHealth (projectUtilization (projectAllocatedHours rows pid) total_hours) = "good" ↔
      80 ≤ projectUtilization (projectAllocatedHours rows pid) total_hours) ∧
    (projectHealth (projectUtilization (projectAllocatedHours rows pid) total_hours) = "warning" ↔
      (50 ≤ projectUtilization (projectAllocatedHours rows pid) total_hours ∧
       projectUtilization (projectAllocatedHours rows pid) total_hours < 80)) ∧
    (projectHealth (projectUtilization (projectAllocatedHours rows pid) total_hours) = "critical" ↔
      projectUtilization (projectAllocatedHours rows pid) total_hours < 50) ∧
    (projectAllocatedHours rows pid = 0 → 0 < total_hours →
      projectHealth (projectUtilization (projectAllocatedHours rows pid) total_hours) = "critical") ∧
    (projectUtilization (projectAllocatedHours rows pid) total_hours = 80 →
      projectHealth (projectUtilization (projectAllocatedHours rows pid) total_hours) = "good") := by
  set u := projectUtilization (projectAllocatedHours rows pid) total_hours with hu
  refine ⟨?_, ?_, ?_, ?_, ?_⟩
  · unfold projectHealth
    split_ifs with h1 h2 <;> simp_all
  · unfold projectHealth
    split_ifs with h1 h2 <;> simp_all
  · unfold projectHealth
    split_ifs with h1 h2 <;> simp_all
    linarith
  · intro hz hpos
    rw [hu, hz]
    unfold projectUtilization
    rw [if_pos hpos]
    unfold projectHealth
    norm_num
  · intro h80
    unfold projectHealth
    rw [h80]
    norm_num

/-- C10: with zero booked ledger revenue for the current month the
    dashboard uses the Project-derived fallback, and a project that is not
    stored as booked, or starts on day 29 or later of the current month,
    or ends before day 1 of it, contributes nothing to that fallback. -/
theorem c10_current_month_filter (l : List MonthlyRevenueRow)
    (ps : List Project) (p : Project) (y m : Nat)
    (h0 : bookedMonthLedgerSum l y m = 0)
    (hp : ¬(p.revenue_type = some "booked") ∨
          (p.start_date.year = y ∧ p.start_date.month = m ∧ 29 ≤ p.start_date.day) ∨
          ¬ dateLe ⟨y, m, 1⟩ p.end_date) :
    dashboardCurrentRevenue l ps y m = currentMonthProjectRevenue ps y m ∧
    currentMonthProjectRevenue (p :: ps) y m =
      currentMonthProjectRevenue ps y m := by
  constructor
  · unfold dashboardCurrentRevenue
    rw [h0]
    simp
  · have hf : dashboardProjectFilter y m p = false := by
      unfold dashboardProjectFilter
      rcases hp with hp | hp | hp
      · have : (p.revenue_type == some "booked") = false := by
          simp [hp]
        simp [this]
      · have : dateLeB p.start_date ⟨y, m, 28⟩ = false := by
        -- a date on day 29 or later of the same month is not <= day 28
          unfold dateLeB
          obtain ⟨h1, h2, h3⟩ := hp
          simp only [decide_eq_false_iff_not]
          unfold dateLe
          simp [h1, h2]
          omega
        simp [this]
      · have : dateLeB ⟨y, m, 1⟩ p.end_date = false := by
          unfold dateLeB
          simp [hp]
        simp [this]
    unfold currentMonthProjectRevenue
    rw [List.filter_cons_of_neg]
    simp [hf]

theorem projectMonthContribution_closed (Y m : Nat) (p : Project)
    (hs : ValidDate p.start_date) (he : ValidDate p.end_date)
    (hse : dateLe p.start_date p.end_date) (hm1 : 1 ≤ m) (hm2 : m ≤ 12) :
    projectMonthContribution Y p m =
      if ymLe (p.start_date.year, p.start_date.month) (Y, m) ∧
         ymLe (Y, m) (p.end_date.year, p.end_date.month) then
        p.total_revenue / (totalProjectMonths p : ℚ)
      else 0 := by
  obtain ⟨⟨sy, sm, sd⟩, ⟨ey, em, ed⟩, rev, rt⟩ := p
  obtain ⟨hs1, hs2, hs3, hs4⟩ := hs
  obtain ⟨he1, he2, he3, he4⟩ := he
  simp only [projectMonthContribution, maxDate, minDate, totalProjectMonths,
    monthIdxN, dateLe, ymLe] at hse ⊢
  split_ifs <;> (dsimp only at *) <;> first
    | rfl
    | (exfalso; omega)

/-- C2: for a project with calendar dates and start_date <= end_date the
    Project-derived path adds exactly total_revenue / span_count to every
    month bucket of the query year lying in the project's whole-month span
    and nothing to any other bucket; the span count is at least 1 (never a
    division by zero); a one-day project puts its entire total_revenue in
    its own single month and 0 elsewhere; and a project spanning exactly
    two whole months with total_revenue 1000 adds 500 to each spanned
    month. -/
theorem c2_whole_month_proration (p : Project) (Y m : Nat)
    (hs : ValidDate p.start_date) (he : ValidDate p.end_date)
    (hse : dateLe p.start_date p.end_date) (hm1 : 1 ≤ m) (hm2 : m ≤ 12) :
    (projectMonthContribution Y p m =
      if ymLe (p.start_date.year, p.start_date.month) (Y, m) ∧
         ymLe (Y, m) (p.end_date.year, p.end_date.month) then
        p.total_revenue / (totalProjectMonths p : ℚ)
      else 0) ∧
    1 ≤ totalProjectMonths p ∧
    (p.start_date = p.end_date →
      projectMonthContribution p.start_date.year p p.start_date.month =
        p.total_revenue) ∧
    (p.start_date = p.end_date →
      ¬((Y, m) = (p.start_date.year, p.start_date.month)) →
      projectMonthContribution Y p m = 0) ∧
    (totalProjectMonths p = 2 → p.total_revenue = 1000 →
      ymLe (p.start_date.year, p.start_date.month) (Y, m) →
      ymLe (Y, m) (p.end_date.year, p.end_date.month) →
      projectMonthContribution Y p m = 500) := by
  have hmain := projectMonthContribution_closed Y m p hs he hse hm1 hm2
  have hy : ymLe (p.start_date.year, p.start_date.month)
      (p.end_date.year, p.end_date.month) := by
    unfold dateLe at hse
    unfold ymLe
    obtain ⟨hs1, hs2, _, _⟩ := hs
    obtain ⟨he1, he2, _, _⟩ := he
    omega
  have hn : 1 ≤ totalProjectMonths p := by
    unfold totalProjectMonths
    rw [if_pos hy]
    unfold ymLe at hy
    unfold monthIdxN
    obtain ⟨hs1, hs2, _, _⟩ := hs
    obtain ⟨he1, he2, _, _⟩ := he
    omega
  refine ⟨hmain, hn, ?_, ?_, ?_⟩
  · intro heq
    have hone : totalProjectMonths p = 1 := by
      unfold totalProjectMonths
      rw [if_pos hy]
      unfold monthIdxN
      rw [← heq]
      omega
    have h := projectMonthContribution_closed p.start_date.year
      p.start_date.month p hs he hse hs.1 hs.2.1
    rw [h, if_pos ⟨Or.inr ⟨rfl, le_refl _⟩, by rw [← heq]; exact Or.inr ⟨rfl, le_refl _⟩⟩,
      hone]
    norm_num
  · intro heq hne
    rw [hmain, if_neg]
    intro hc
    obtain ⟨hc1, hc2⟩ := hc
    rw [← heq] at hc2
    have hym : Y = p.start_date.year ∧ m = p.start_date.month := by
      unfold ymLe at hc1 hc2
      omega
    exact hne (by rw [hym.1, hym.2])
  · intro h2 h1000 hsp1 hsp2
    rw [hmain, if_pos ⟨hsp1, hsp2⟩, h2, h1000]
    norm_num

theorem projectMonthContribution_nonneg (year : Nat) (p : Project) (m : Nat)
    (h : 0 ≤ p.total_revenue) : 0 ≤ projectMonthContribution year p m := by
  unfold projectMonthContribution
  dsimp only
  split_ifs <;> first
    | exact div_nonneg h (Nat.cast_nonneg _)
    | exact le_refl 0

theorem ledgerSum_nonneg (l : List MonthlyRevenueRow) (year m : Nat)
    (t : String) (hl : ∀ r ∈ l, 0 ≤ r.revenue) :
    0 ≤ ledgerSum l year m t := by
  apply List.sum_nonneg
  intro x hx
  rw [List.mem_map] at hx
  obtain ⟨r, hr, hrx⟩ := hx
  rw [List.mem_filter] at hr
  rw [← hrx]
  exact hl r hr.1

theorem typeContribs_sum_nonneg (ps : List Project) (t : String)
    (year m : Nat) (hp : ∀ p ∈ ps, 0 ≤ p.total_revenue) :
    0 ≤ (typeContribs ps t year m).sum := by
  apply List.sum_nonneg
  intro x hx
  unfold typeContribs at hx
  rw [List.mem_map] at hx
  obtain ⟨p, hpmem, hpx⟩ := hx
  rw [List.mem_filter] at hpmem
  rw [← hpx]
  exact projectMonthContribution_nonneg year p m (hp p hpmem.1)

theorem monthlyDataFun_nonneg (l : List MonthlyRevenueRow)
    (ps : List Project) (year m : Nat)
    (hl : ∀ r ∈ l, 0 ≤ r.revenue) (hp : ∀ p ∈ ps, 0 ≤ p.total_revenue) :
    0 ≤ (monthlyDataFun l ps year m).booked ∧
    0 ≤ (monthlyDataFun l ps year m).forecast := by
  rw [monthlyDataFun_apply]
  have hb : 0 ≤ (ledgerBucket l year m).booked := by
    unfold ledgerBucket
    split_ifs
    · exact ledgerSum_nonneg l year m "booked" hl
    · exact le_refl 0
  have hf : 0 ≤ (ledgerBucket l year m).forecast := by
    unfold ledgerBucket
    split_ifs
    · exact ledgerSum_nonneg l year m "forecast" hl
    · exact le_refl 0
  constructor
  · exact add_nonneg hb (typeContribs_sum_nonneg ps "booked" year m hp)
  · exact add_nonneg hf (typeContribs_sum_nonneg ps "forecast" year m hp)

/-- C6: with non-negative project totals and ledger revenues,
    revenue_chart_data always yields exactly 12 booked and 12 forecast
    buckets (months 1..12) and every bucket value is a non-negative
    rational — never missing, never null. -/
theorem c6_twelve_nonneg_buckets (l : List MonthlyRevenueRow)
    (ps : List Project) (profiles : List UserProfileRow)
    (costs : List CostRow) (expenseRows : List ExpenseRow)
    (ceRows : List ContractorExpenseRow) (u : Bool) (year : Nat)
    (hl : ∀ r ∈ l, 0 ≤ r.revenue) (hp : ∀ p ∈ ps, 0 ≤ p.total_revenue) :
    (revenue_chart_data l ps profiles costs expenseRows ceRows u year).booked.length = 12 ∧
    (revenue_chart_data l ps profiles costs expenseRows ceRows u year).forecast.length = 12 ∧
    (∀ x ∈ (revenue_chart_data l ps profiles costs expenseRows ceRows u year).booked, 0 ≤ x) ∧
    (∀ x ∈ (revenue_chart_data l ps profiles costs expenseRows ceRows u year).forecast, 0 ≤ x) := by
  refine ⟨?_, ?_, ?_, ?_⟩
  · simp [revenue_chart_data]
  · simp [revenue_chart_data]
  · intro x hx
    simp only [revenue_chart_data, List.mem_map] at hx
    obtain ⟨i, _, hix⟩ := hx
    rw [← hix]
    exact (monthlyDataFun_nonneg l ps year (i + 1) hl hp).1
  · intro x hx
    simp only [revenue_chart_data, List.mem_map] at hx
    obtain ⟨i, _, hix⟩ := hx
    rw [← hix]
    exact (monthlyDataFun_nonneg l ps year (i + 1) hl hp).2

/-- C1 counterexample: with a MonthlyRevenue row present for the year, the
    January 2024 booked bucket is 150, not the ledger sum 100 — the
    Project-based derivation still contributed 50, so the ledger is not
    authoritative and the claim is false at this input. -/
theorem c1_counterexample :
    ledgerJan2024 ≠ [] ∧
    (ledgerBucket ledgerJan2024 2024 1).booked = 100 ∧
    (monthlyDataFun ledgerJan2024 [projJan2024] 2024 1).booked = 150 ∧
    ¬((monthlyDataFun ledgerJan2024 [projJan2024] 2024 1).booked =
        (ledgerBucket ledgerJan2024 2024 1).booked) := by
  have hledger : (ledgerBucket ledgerJan2024 2024 1).booked = 100 := by
    unfold ledgerBucket ledgerSum ledgerJan2024
    norm_num
  have hcontrib :
      projectMonthContribution 2024 projJan2024 1 = 50 := by
    unfold projectMonthContribution maxDate minDate totalProjectMonths
      monthIdxN projJan2024 dateLe ymLe
    norm_num
  have hbucket :
      (monthlyDataFun ledgerJan2024 [projJan2024] 2024 1).booked = 150 := by
    rw [monthlyDataFun_apply, hledger]
    unfold typeContribs
    have hres : resolveRevenueType projJan2024 = "booked" := by
      unfold resolveRevenueType projJan2024
      norm_num
    simp [hres, hcontrib]
    norm_num
  refine ⟨by simp [ledgerJan2024], hledger, hbucket, ?_⟩
  rw [hbucket, hledger]
  norm_num

/-- C1 amended: when MonthlyRevenue rows exist for the year they
    initialise the buckets with the per-month ledger sums, but the
    Project-based pro-ration still runs and is added on top: every month
    bucket equals the ledger sum plus the sum of the project-derived
    contributions of its revenue type (the combined strategy), not the
    ledger sums alone. -/
theorem c1_combined_sources (l : List MonthlyRevenueRow) (ps : List Project)
    (year m : Nat) (_hl : l ≠ []) (hm : 1 ≤ m ∧ m ≤ 12) :
    (monthlyDataFun l ps year m).booked =
      ledgerSum l year m "booked" + (typeContribs ps "booked" year m).sum ∧
    (monthlyDataFun l ps year m).forecast =
      ledgerSum l year m "forecast" + (typeContribs ps "forecast" year m).sum := by
  rw [monthlyDataFun_apply]
  unfold ledgerBucket
  rw [if_pos hm]
  exact ⟨rfl, rfl⟩

/-- Witness for C1 amended at a concrete state: one ledger row and one
    project, January 2024 bucket equals ledger sum plus contribution. -/
theorem c1_combined_sources_witness :
    (monthlyDataFun ledgerJan2024 [projJan2024] 2024 1).booked =
      ledgerSum ledgerJan2024 2024 1 "booked" +
        (typeContribs [projJan2024] "booked" 2024 1).sum :=
  (c1_combined_sources ledgerJan2024 [projJan2024] 2024 1
    (by simp [ledgerJan2024]) (by norm_num)).1

/-- Witness for C2 at a concrete project: the two-whole-months project
    worth 1000 contributes exactly 500 to its January bucket. -/
theorem c2_whole_month_proration_witness :
    projectMonthContribution 2024 projTwoMonths 1 = 500 := by
  have h := c2_whole_month_proration projTwoMonths 2024 1
    (by decide) (by decide) (by decide) (by norm_num) (by norm_num)
  exact h.2.2.2.2 (by decide) rfl (by decide) (by decide)

/-- Witness for C5 at a concrete batch: one valid and one unknown member,
    created count 1 and exactly one logged error. -/
theorem c5_partial_success_witness :
    (save_allocations_view_fixed dbOne "p" [] [validEntryA, unknownEntryB]).created_count = 1 ∧
    (save_allocations_view_fixed dbOne "p" [] [validEntryA, unknownEntryB]).errors =
      ["Error creating allocation"] := by
  have h := c5_partial_success dbOne "p" [] validEntryA unknownEntryB
    "1" "99" ⟨"1", 50⟩ rfl rfl (by decide) (by decide) (by norm_num [entryHours, validEntryA])
    rfl rfl (by decide) (by decide) (by norm_num [entryHours, unknownEntryB])
  exact ⟨h.1, h.2.1⟩

/-- Witness for C6 at a concrete state: the booked series has exactly 12
    entries. -/
theorem c6_twelve_nonneg_buckets_witness :
    (revenue_chart_data ledgerJan2024 [projJan2024] [] [] [] [] true 2024).booked.length = 12 :=
  (c6_twelve_nonneg_buckets ledgerJan2024 [projJan2024] [] [] [] [] true 2024
    (by intro r hr; simp [ledgerJan2024] at hr; subst hr; norm_num)
    (by intro p hp; simp at hp; subst hp; norm_num [projJan2024])).1

/-- Witness for C7 at a concrete project: zero allocated hours with
    positive total hours classifies as critical. -/
theorem c7_health_classification_witness :
    projectHealth (projectUtilization (projectAllocatedHours [] "p") 10) = "critical" :=
  (c7_health_classification [] "p" 10).2.2.2.1 rfl (by norm_num)

/-- Witness for C8 at a concrete batch: every created row of the project
    carries is_project_manager true exactly for the designated member. -/
theorem c8_pm_designation_witness :
    (save_allocations_view_admin dbTwo "p" [] batchWithPm).all
      (fun r => !(r.project == "p") || (r.is_project_manager == (r.member == "1"))) = true := by
  have h := c8_pm_designation dbTwo "p" [] batchWithPm pmEntry "1" rfl rfl
  rw [List.all_eq_true]
  intro r hr
  by_cases hp : r.project = "p"
  · have hflag := h r hr hp
    simp [hflag]
  · simp [hp]

/-- Witness for C9 at a concrete state: a batch holding only a zero-hours
    entry wipes the project's rows, creates nothing, reports 0. -/
theorem c9_invalid_entries_witness :
    save_allocations_view_fixed dbOne "p" [existingRow] [zeroHoursEntry] =
      { rows := [], created_count := 0, errors := [] } := by
  have h := c9_invalid_entries dbOne "p" [existingRow] [zeroHoursEntry]
    (by
      intro a ha
      rw [List.mem_singleton] at ha
      rw [ha]
      right; right; right
      norm_num [entryHours, zeroHoursEntry])
  rw [h]
  simp [existingRow]

/-- Witness for C10 at a concrete state: empty ledger falls back to the
    project derivation and a forecast project contributes nothing. -/
theorem c10_current_month_filter_witness :
    dashboardCurrentRevenue [] [forecastProj] 2024 1 =
      currentMonthProjectRevenue [forecastProj] 2024 1 ∧
    currentMonthProjectRevenue [forecastProj] 2024 1 =
      currentMonthProjectRevenue [] 2024 1 :=
  c10_current_month_filter [] [] forecastProj 2024 1 rfl
    (Or.inl (by simp [forecastProj]))
